import Mathlib

/-!
Verification of the rustcar car-rental model (Sutton & Barto "Jack's Car
Rental") against its specification.

The development shallowly embeds the Rust core:
  - `solver.rs`: `State`, `Outcome`, `Outcome::solve`, `StateIterator`;
  - `policy.rs`: `Policy`, `Policy::get_value`;
  - `cars.rs`: `RentalAgency` with its probability tables, `rent_prob`,
    `return_prob`, `outcome_prob`, `reward`, `cars_rented`,
    `calc_reward_prob`, `calc_value_for_action`.

Machine-integer conventions used throughout the embedding:
  - `u8`, `i8`, `i16`, `u32`, `usize` values are carried as `ℕ` / `ℤ`;
  - every `as` cast wraps exactly as in Rust (casts never panic there);
  - plain arithmetic on sized integers is modelled with release-profile
    (two's-complement wrapping) semantics; a debug build would panic at
    exactly the inputs where a wrap occurs, which never changes whether a
    claim holds, only the way it fails;
  - operations that panic in every profile (`checked_add(..).expect`,
    out-of-range `ndarray` indexing, explicit `panic!`) are modelled by
    `Option`, with `none` for the panic;
  - `f32` configuration means are carried as `ℚ` (every float is rational)
    and `f64` probabilities/values as exact reals `ℝ`;
  - Lean's `%` on `ℤ` (emod) is used for the `% 10 == 0` divisibility test,
    which agrees with Rust's remainder on the zero test, and `/` is used
    only on exactly divisible numerators, where every division convention
    coincides with Rust's truncating division.
-/

set_option maxHeartbeats 2000000
set_option maxRecDepth 8000

namespace Rustcar

/-! ## Machine integer helpers -/

/-- Wrap an integer into the `i8` range [-128, 127], the effect of a Rust
`as i8` cast and of release-profile `i8` arithmetic. -/
def toI8 (v : ℤ) : ℤ := (v + 128) % 256 - 128

/-- Wrap an integer into the `i16` range [-32768, 32767]. -/
def toI16 (v : ℤ) : ℤ := (v + 32768) % 65536 - 32768

/-- Wrap an integer into the `u8` range [0, 255], the effect of `as u8`. -/
def toU8 (v : ℤ) : ℤ := v % 256

/-- Wrap an integer into the `usize` range, the effect of `as usize` on a
64-bit target; a negative `i8`/`i16` becomes a number close to 2^64. -/
def toUsize (v : ℤ) : ℕ := (v % 18446744073709551616).toNat

/-- Release-profile `usize` subtraction (wraps on underflow). -/
def usizeSub (m n : ℕ) : ℕ := toUsize ((m : ℤ) - (n : ℤ))

/-- Model of `u8::checked_add(..).expect("Overflow")`: `none` is the panic,
in every build profile. -/
def checkedAddU8 (m n : ℕ) : Option ℕ :=
  if m + n ≤ 255 then some (m + n) else none

/-! ## solver.rs -/

/-- `State` from solver.rs: cars at site 1 and site 2 at the start of a
day. The Rust fields are `u8`; the embedding carries them as `ℕ`, with
`≤ 255` hypotheses where the u8 range matters. -/
structure State where
  n1 : ℕ
  n2 : ℕ
deriving DecidableEq

/-- `Outcome` from solver.rs: cars rented (`x1`, `x2`) and returned
(`y1`, `y2`) at each site during one day. The Rust fields are `i16`. -/
structure Outcome where
  x1 : ℤ
  x2 : ℤ
  y1 : ℤ
  y2 : ℤ
deriving DecidableEq

/-- `Outcome::is_nonnegative` from solver.rs. -/
def Outcome.is_nonnegative (oc : Outcome) : Prop :=
  0 ≤ oc.x1 ∧ 0 ≤ oc.x2 ∧ 0 ≤ oc.y1 ∧ 0 ≤ oc.y2

instance (oc : Outcome) : Decidable oc.is_nonnegative := by
  unfold Outcome.is_nonnegative; infer_instance

/-- `Outcome::locations_have_enough_cars` from solver.rs: one cannot rent
more cars than remain on a lot after the overnight move. -/
def Outcome.locations_have_enough_cars (oc : Outcome) (s1 : State) (a : ℤ) : Prop :=
  oc.x1 ≤ (s1.n1 : ℤ) - a ∧ oc.x2 ≤ (s1.n2 : ℤ) + a

instance (oc : Outcome) (s1 : State) (a : ℤ) :
    Decidable (oc.locations_have_enough_cars s1 a) := by
  unfold Outcome.locations_have_enough_cars; infer_instance

/-- `Outcome::solve` from solver.rs. Note that the guard
`xt > (s1.n1 + s1.n2) as u16` adds the two `u8` inventories in `u8`
arithmetic before widening, hence the `% 256` (a debug build would panic
at the same inputs instead of wrapping). The loop body follows the source:
the inventory check runs first (`continue`), then `y1`/`y2` are filled in
from the conservation law, then the non-negativity check gates the push.
`x` and `xt - x` are `u16` values cast to `i16`; after the guard
`xt ≤ 255` holds, so those casts are exact and are written as plain
coercions. -/
def Outcome.solve (s1 s2 : State) (xt : ℕ) (a : ℤ) : List Outcome :=
  if a > (s1.n1 : ℤ) ∨ -a > (s1.n2 : ℤ) then []
  else if xt > (s1.n1 + s1.n2) % 256 then []
  else
    (List.range (xt + 1)).filterMap (fun (x : ℕ) =>
      let z : Outcome := ⟨(x : ℤ), Int.ofNat (xt - x), 0, 0⟩
      if z.locations_have_enough_cars s1 a then
        let z1 : Outcome :=
          ⟨z.x1, z.x2,
           (s2.n1 : ℤ) - (s1.n1 : ℤ) + z.x1 + a,
           (s2.n2 : ℤ) - (s1.n2 : ℤ) + z.x2 - a⟩
        if z1.is_nonnegative then some z1 else none
      else none)

/-- The sequence of states produced by `StateIterator::new(max1, max2)`
from solver.rs: all pairs (n1, n2) with n1 ≤ max1, n2 ≤ max2, in
lexicographic order with n2 varying fastest. -/
def stateList (max1 max2 : ℕ) : List State :=
  (List.range (max1 + 1)).flatMap (fun n1 =>
    (List.range (max2 + 1)).map (fun n2 => ⟨n1, n2⟩))

/-! ## policy.rs -/

/-- `Policy` from policy.rs. `action_value` stands for the
`ndarray::Array3<f64>` built by `Policy::new` with dimensions
`(max1 + 1, max2 + 1, max_move * 2 + 1)`; `policy` for the
`Array2<i8>` of greedy actions. The functions are total; the dimension
checks of an `ndarray` lookup live in `Policy.get_value`. -/
structure Policy where
  max1 : ℕ
  max2 : ℕ
  max_move : ℕ
  action_value : ℕ → ℕ → ℕ → ℝ
  policy : ℕ → ℕ → ℤ

/-- `Policy::get_value` from policy.rs. The action index is
`(a + self.max_move as i8) as usize`, an `i8` addition that wraps (or
panics in debug) when `a + max_move` leaves the `i8` range, followed by
an `as usize` cast that turns a negative index into a number close to
2^64. The `ndarray` lookup panics (`none`) when an index is outside the
dimensions set by `Policy::new`; note that `Policy::new` computes all
three dimensions (`max1 + 1`, `max2 + 1`, `max_move * 2 + 1`) in `u8`
arithmetic before the `usize` cast, hence the `% 256`. -/
def Policy.get_value (p : Policy) (n1 n2 : ℕ) (a : ℤ) : Option ℝ :=
  let aIdx := toUsize (toI8 (a + toI8 (p.max_move : ℤ)))
  if n1 < (p.max1 + 1) % 256 ∧ n2 < (p.max2 + 1) % 256 ∧
      aIdx < (p.max_move * 2 + 1) % 256 then
    some (p.action_value n1 n2 aIdx)
  else none

/-! ## cars.rs: Poisson probability tables -/

/-- The Poisson probability mass function, as an exact real. The Rust
code obtains it as `statrs::distribution::Poisson::pmf`. -/
noncomputable def poisson_pmf (lam : ℝ) (k : ℕ) : ℝ :=
  Real.exp (-lam) * lam ^ k / (Nat.factorial k : ℝ)

/-- The Poisson cumulative distribution function at an integer point,
as an exact real: the sum of the pmf over 0..n. The Rust code obtains it
as `statrs::distribution::Poisson::cdf`. -/
noncomputable def poisson_cdf (lam : ℝ) (n : ℕ) : ℝ :=
  ∑ k ∈ Finset.range (n + 1), poisson_pmf lam k

/-- `RentalAgency::rent_prob` from cars.rs: the probability that `x` cars
are rented when `n` cars are on a lot with capacity `max_n`. The branch
order follows the source. In the `x = n` branch the source calls
`cdf(n - 1)`; that branch is only reachable for `n ≥ 1` (the `n = 0`,
`x = 0` case was caught earlier and `x < n`, `x > n` cover `n = 0`
otherwise), so the `ℕ` subtraction is exact there. -/
noncomputable def rent_prob (lam : ℝ) (max_n n x : ℕ) : ℝ :=
  if max_n < n then 0
  else if n = 0 ∧ x = 0 then 1
  else if x < n then poisson_pmf lam x
  else if x = n then 1 - poisson_cdf lam (n - 1)
  else 0

/-- `RentalAgency::return_prob` from cars.rs: the probability that `y`
cars are returned when `n` cars are on a lot with capacity `max_n`. The
branch order follows the source; in the `y = max_n - n` branch the source
calls `cdf(max_n - n - 1)`, reachable only when `max_n - n ≥ 1` (the
`n = max_n` case was caught earlier), so the `ℕ` subtractions are
exact. -/
noncomputable def return_prob (lam : ℝ) (max_n n y : ℕ) : ℝ :=
  if max_n < n then 0
  else if max_n - n < y then 0
  else if n = max_n then (if y = 0 then 1 else 0)
  else if y < max_n - n then poisson_pmf lam y
  else if y = max_n - n then 1 - poisson_cdf lam (max_n - n - 1)
  else 0

/-- `RentalAgency::calc_rent_probs` from cars.rs. `Poisson::new(mean)`
returns an error for a non-positive rate and the source `unwrap`s it, so
a non-positive mean is a construction panic (`none`). The mean is an
`f32`, carried as `ℚ`. The resulting table is the square array with
entries `rent_prob` over `[0, max_n] × [0, max_n]`. -/
noncomputable def calc_rent_probs (mean : ℚ) (max_n : ℕ) : Option (ℕ → ℕ → ℝ) :=
  if mean ≤ 0 then none
  else some (fun n x => rent_prob (mean : ℝ) max_n n x)

/-- `RentalAgency::calc_return_probs` from cars.rs; see
`calc_rent_probs`. -/
noncomputable def calc_return_probs (mean : ℚ) (max_n : ℕ) : Option (ℕ → ℕ → ℝ) :=
  if mean ≤ 0 then none
  else some (fun n y => return_prob (mean : ℝ) max_n n y)

/-! ## cars.rs: the model object -/

/-- `RentalAgency` from cars.rs. The `x1`, `y1`, `x2`, `y2` fields stand
for the four `(max + 1) × (max + 1)` probability tables; lookups go
through `lookup2`, which carries the dimension checks of `ndarray`
indexing. -/
structure RentalAgency where
  max1 : ℕ
  rent_mean1 : ℚ
  return_mean1 : ℚ
  x1 : ℕ → ℕ → ℝ
  y1 : ℕ → ℕ → ℝ
  max2 : ℕ
  rent_mean2 : ℚ
  return_mean2 : ℚ
  x2 : ℕ → ℕ → ℝ
  y2 : ℕ → ℕ → ℝ
  max_move : ℕ
  g : ℝ

/-- `RentalAgency::new` from cars.rs: panics (`none`) when
`max_move > min(max1, max2) / 2` (`u8` division truncates, as `ℕ`
division does), then builds the four tables, panicking inside
`calc_rent_probs` / `calc_return_probs` when a Poisson mean is invalid;
otherwise stores every parameter unchanged and the discount `g = 0.9`. -/
noncomputable def rental_agency_new (max1 : ℕ) (rent_mean1 return_mean1 : ℚ)
    (max2 : ℕ) (rent_mean2 return_mean2 : ℚ) (max_move : ℕ) :
    Option RentalAgency :=
  if max_move > min max1 max2 / 2 then none
  else do
    let x1_probs ← calc_rent_probs rent_mean1 max1
    let y1_probs ← calc_return_probs return_mean1 max1
    let x2_probs ← calc_rent_probs rent_mean2 max2
    let y2_probs ← calc_return_probs return_mean2 max2
    some ⟨max1, rent_mean1, return_mean1, x1_probs, y1_probs,
          max2, rent_mean2, return_mean2, x2_probs, y2_probs,
          max_move, 0.9⟩

/-- An `ndarray` lookup in the square probability table built by
`calc_rent_probs` / `calc_return_probs`, whose dimension
`(max_n + 1) as usize` is computed in `u8` first (hence the `% 256`):
panics (`none`) when an index is out of range. -/
def lookup2 (t : ℕ → ℕ → ℝ) (max_n i j : ℕ) : Option ℝ :=
  if i < (max_n + 1) % 256 ∧ j < (max_n + 1) % 256 then some (t i j) else none

/-- `RentalAgency::outcome_prob` from cars.rs. The post-move inventories
are computed as `(s.n1 as i8 - a) as usize` and `(s.n2 as i8 + a) as
usize`: `i8` arithmetic that wraps (debug would panic on overflow),
then a cast that sends a negative value close to 2^64; the row for the
return lookup subtracts the rented cars in `usize`. Each of the four
lookups panics (`none`) when out of range. -/
noncomputable def outcome_prob (A : RentalAgency) (s : State) (a : ℤ)
    (oc : Outcome) : Option ℝ := do
  let n1 := toUsize (toI8 (toI8 (s.n1 : ℤ) - a))
  let p_x1 ← lookup2 A.x1 A.max1 n1 (toUsize oc.x1)
  let p_y1 ← lookup2 A.y1 A.max1 (usizeSub n1 (toUsize oc.x1)) (toUsize oc.y1)
  let n2 := toUsize (toI8 (toI8 (s.n2 : ℤ) + a))
  let p_x2 ← lookup2 A.x2 A.max2 n2 (toUsize oc.x2)
  let p_y2 ← lookup2 A.y2 A.max2 (usizeSub n2 (toUsize oc.x2)) (toUsize oc.y2)
  some (p_x1 * p_y1 * p_x2 * p_y2)

/-! ## cars.rs: rewards -/

/-- `RentalAgency::reward` from cars.rs: `xt as i32 * 10 - 2 * a.abs()
as i32` for `xt : u32`, `a : i8`. `i8::abs` is computed before the
widening cast, so `(-128).abs()` wraps back to `-128` (panics in debug);
`toI8` captures that single wrapping case. -/
def reward (xt : ℕ) (a : ℤ) : ℤ :=
  (xt : ℤ) * 10 - 2 * toI8 |a|

/-- `RentalAgency::cars_rented` from cars.rs (the identical
`CarProbs::cars_rented` lives in lib.rs): recover the number of rented
cars from an `i16` reward and action. `a.abs()` and the products/sums
wrap in `i16`; the divisibility test `% 10 == 0` agrees between Rust's
remainder and `ℤ`'s emod, and the division only happens on an exactly
divisible value, where truncating and Euclidean division coincide. A
failed check is a panic (`none`); the final `as u8` cast wraps. -/
def cars_rented (r a : ℤ) : Option ℤ :=
  if ¬ (toI16 (r + toI16 (2 * toI16 |a|))) % 10 = 0 then none
  else if toI16 (r + toI16 (2 * toI16 |a|)) / 10 > 255 then none
  else some (toU8 (toI16 (r + toI16 (2 * toI16 |a|)) / 10))

/-- `RentalAgency::calc_reward_prob` from cars.rs: the reward for `xt`
total rentals under action `a`, and the summed probability over every
outcome `Outcome::solve` finds for the transition. The source also
returns the `Vec<OutcomeProb>` diagnostic trace, which no claim uses and
which is omitted here; the accumulation of `reward_prob` follows the
source's loop. -/
noncomputable def calc_reward_prob (A : RentalAgency) (s1 s2 : State)
    (a : ℤ) (xt : ℕ) : Option (ℤ × ℝ) := do
  let r := reward xt a
  let reward_prob ← (Outcome.solve s1 s2 xt a).foldlM
    (fun (acc : ℝ) oc => do
      let prob ← outcome_prob A s1 a oc
      some (acc + prob)) (0 : ℝ)
  some (r, reward_prob)

/-- `RentalAgency::calc_value_for_action` from cars.rs. The validity
gate compares in `i8` arithmetic (`a + s1.n2 as i8 > max2 as i8`, etc.),
with the wrapping conversions made explicit; when it fires the function
returns `0.0` at once. Otherwise it folds over `StateIterator`'s states;
for each next state it reads the policy value first, then computes
`s1.n1.checked_add(s1.n2).expect("Overflow")` (a panic, `none`, when the
`u8` sum overflows), then accumulates
`reward_prob * (r + g * v_s2)` over `xt` in `0..=max_rented`. -/
noncomputable def calc_value_for_action (A : RentalAgency) (s1 : State)
    (a : ℤ) (pi : Policy) : Option ℝ :=
  if 0 < a ∧ (toI8 (a + toI8 (s1.n2 : ℤ)) > toI8 (A.max2 : ℤ)
      ∨ toI8 (toI8 (s1.n1 : ℤ) - a) < 0) then
    some 0
  else if a < 0 ∧ (toI8 (toI8 (s1.n1 : ℤ) - a) > toI8 (A.max1 : ℤ)
      ∨ toI8 (toI8 (s1.n2 : ℤ) + a) < 0) then
    some 0
  else
    (stateList A.max1 A.max2).foldlM
      (fun (value : ℝ) s2 => do
        let v_s2 ← pi.get_value s2.n1 s2.n2 a
        let max_rented ← checkedAddU8 s1.n1 s1.n2
        (List.range (max_rented + 1)).foldlM
          (fun (value : ℝ) xt => do
            let rp ← calc_reward_prob A s1 s2 a xt
            some (value + rp.2 * ((rp.1 : ℝ) + A.g * v_s2)))
          value)
      (0 : ℝ)

/-! ## Claim-side definitions -/

/-- The validity gate of `calc_value_for_action` read in unbounded
integer arithmetic, as the specification states it: a positive move must
fit on lot 2 and be available on lot 1; a negative move must fit on
lot 1 and be available on lot 2. -/
def valid_action (max1 max2 : ℕ) (s1 : State) (a : ℤ) : Prop :=
  (0 < a → a + (s1.n2 : ℤ) ≤ (max2 : ℤ) ∧ a ≤ (s1.n1 : ℤ)) ∧
  (a < 0 → (s1.n1 : ℤ) - a ≤ (max1 : ℤ) ∧ 0 ≤ (s1.n2 : ℤ) + a)

instance (max1 max2 : ℕ) (s1 : State) (a : ℤ) :
    Decidable (valid_action max1 max2 s1 a) := by
  unfold valid_action; infer_instance

/-- The product of the four table entries `outcome_prob` multiplies, as a
plain real number (no index checks): defined for comparison with
`outcome_prob`, whose lookups are proved in range under the evaluation's
preconditions. -/
noncomputable def prod_prob (A : RentalAgency) (s1 : State) (a : ℤ)
    (oc : Outcome) : ℝ :=
  A.x1 ((s1.n1 : ℤ) - a).toNat oc.x1.toNat *
    A.y1 (((s1.n1 : ℤ) - a).toNat - oc.x1.toNat) oc.y1.toNat *
    A.x2 ((s1.n2 : ℤ) + a).toNat oc.x2.toNat *
    A.y2 (((s1.n2 : ℤ) + a).toNat - oc.x2.toNat) oc.y2.toNat

/-- The probability mass of a transition for a fixed total-rentals count:
the sum of the outcome probabilities over every outcome `Outcome::solve`
produces, as in the specification of the value evaluator. -/
noncomputable def mass (A : RentalAgency) (s1 s2 : State) (a : ℤ)
    (xt : ℕ) : ℝ :=
  ((Outcome.solve s1 s2 xt a).map (prod_prob A s1 a)).sum

/-- The triple sum the specification says `calc_value_for_action`
computes: over every next state within capacity and every total-rentals
count from 0 to `s1.n1 + s1.n2`, the mass times the exact reward
`10 xt - 2 |a|` plus the discounted stored value of the next state under
the same action (the entry `Policy::get_value` reads). -/
noncomputable def claimed_value (A : RentalAgency) (s1 : State) (a : ℤ)
    (pi : Policy) : ℝ :=
  ∑ m ∈ Finset.range (A.max1 + 1), ∑ k ∈ Finset.range (A.max2 + 1),
    ∑ xt ∈ Finset.range (s1.n1 + s1.n2 + 1),
      mass A s1 ⟨m, k⟩ a xt *
        ((10 * (xt : ℝ) - 2 * |(a : ℝ)|) +
          A.g * pi.action_value m k (a + (pi.max_move : ℤ)).toNat)

/-- Modelled from the spec (section 4.2 wording, quoted by claim C2): for
each split `x1` in `[0, total_rented]` with `x2 = total_rented - x1`,
compute `y1`, `y2` from the conservation law and accept the outcome iff
all four values are non-negative and each site's rentals fit within its
post-move inventory. Written from the specification's words, for
comparison with `Outcome.solve`. -/
def spec_outcomes (s1 s2 : State) (xt : ℕ) (a : ℤ) : List Outcome :=
  (List.range (xt + 1)).filterMap (fun (x : ℕ) =>
    let x1 : ℤ := (x : ℤ)
    let x2 : ℤ := (xt : ℤ) - (x : ℤ)
    let y1 : ℤ := (s2.n1 : ℤ) - (s1.n1 : ℤ) + x1 + a
    let y2 : ℤ := (s2.n2 : ℤ) - (s1.n2 : ℤ) + x2 - a
    if 0 ≤ x1 ∧ 0 ≤ x2 ∧ 0 ≤ y1 ∧ 0 ≤ y2 ∧
        x1 ≤ (s1.n1 : ℤ) - a ∧ x2 ≤ (s1.n2 : ℤ) + a then
      some ⟨x1, x2, y1, y2⟩
    else none)

/-! ## Concrete instances used by witnesses and counterexamples -/

/-- The agency `RentalAgency::new(200, 1.0, 1.0, 200, 1.0, 1.0, 100)`
builds: two lots of capacity 200, all Poisson means 1, move bound 100
(which satisfies the constructor's half-capacity constraint). -/
noncomputable def agency200 : RentalAgency :=
  ⟨200, 1, 1, fun n x => rent_prob 1 200 n x, fun n y => return_prob 1 200 n y,
   200, 1, 1, fun n x => rent_prob 1 200 n x, fun n y => return_prob 1 200 n y,
   100, 0.9⟩

/-- The all-zero policy tables `Policy::new(200, 200, 100)` builds. -/
def pi200 : Policy := ⟨200, 200, 100, fun _ _ _ => 0, fun _ _ => 0⟩

/-- The agency `RentalAgency::new(0, 1.0, 1.0, 0, 1.0, 1.0, 0)` builds:
two lots of capacity 0, all Poisson means 1, move bound 0. -/
noncomputable def agency0 : RentalAgency :=
  ⟨0, 1, 1, fun n x => rent_prob 1 0 n x, fun n y => return_prob 1 0 n y,
   0, 1, 1, fun n x => rent_prob 1 0 n x, fun n y => return_prob 1 0 n y,
   0, 0.9⟩

/-- The all-zero policy tables `Policy::new(0, 0, 1)` builds. -/
def pi0 : Policy := ⟨0, 0, 1, fun _ _ _ => 0, fun _ _ => 0⟩

/-- A policy shaped like `Policy::new(0, 0, 0)` whose stored action
values are all 1 (as the driver could have written after one sweep). -/
def pi_one : Policy := ⟨0, 0, 0, fun _ _ _ => 1, fun _ _ => 0⟩

/-- The agency `RentalAgency::new(127, 1.0, 1.0, 127, 1.0, 1.0, 63)`
builds: capacity 127 at both lots, Poisson means 1, move bound 63. -/
noncomputable def agency127 : RentalAgency :=
  ⟨127, 1, 1, fun n x => rent_prob 1 127 n x, fun n y => return_prob 1 127 n y,
   127, 1, 1, fun n x => rent_prob 1 127 n x, fun n y => return_prob 1 127 n y,
   63, 0.9⟩

/-- The agency `RentalAgency::new(1, 1.0, 1.0, 1, 1.0, 1.0, 0)` builds. -/
noncomputable def agency1 : RentalAgency :=
  ⟨1, 1, 1, fun n x => rent_prob 1 1 n x, fun n y => return_prob 1 1 n y,
   1, 1, 1, fun n x => rent_prob 1 1 n x, fun n y => return_prob 1 1 n y,
   0, 0.9⟩

/-- The all-zero policy tables `Policy::new(1, 1, 0)` builds. -/
def pi1 : Policy := ⟨1, 1, 0, fun _ _ _ => 0, fun _ _ => 0⟩

/-! ## Helper lemmas -/

theorem toI8_eq_self {v : ℤ} (h1 : -128 ≤ v) (h2 : v ≤ 127) : toI8 v = v := by
  unfold toI8; omega

theorem toI16_eq_self {v : ℤ} (h1 : -32768 ≤ v) (h2 : v ≤ 32767) : toI16 v = v := by
  unfold toI16; omega

theorem toUsize_eq_toNat {v : ℤ} (h1 : 0 ≤ v) (h2 : v < 18446744073709551616) :
    toUsize v = v.toNat := by
  unfold toUsize; omega

theorem usizeSub_eq {m n : ℕ} (h : n ≤ m) (h2 : m < 18446744073709551616) :
    usizeSub m n = m - n := by
  unfold usizeSub toUsize; omega

/-- An `Option`-valued left fold whose every step succeeds and adds a
summand to the accumulator computes the sum of the summands. -/
theorem foldlM_option_sum {α : Type} (l : List α) (f : ℝ → α → Option ℝ)
    (t : α → ℝ) (h : ∀ x ∈ l, ∀ acc : ℝ, f acc x = some (acc + t x)) :
    ∀ init : ℝ, l.foldlM f init = some (init + (l.map t).sum) := by
  induction l with
  | nil => intro init; simp
  | cons x xs ih =>
    intro init
    have hx : f init x = some (init + t x) := h x (by simp) init
    have ih2 := ih (fun y hy acc => h y (by simp [hy]) acc) (init + t x)
    simp only [List.foldlM_cons, hx, Option.bind_eq_bind, Option.some_bind, ih2,
      List.map_cons, List.sum_cons]
    rw [add_assoc]

theorem mem_stateList {max1 max2 : ℕ} {s : State} :
    s ∈ stateList max1 max2 ↔ s.n1 ≤ max1 ∧ s.n2 ≤ max2 := by
  obtain ⟨m, k⟩ := s
  unfold stateList
  simp only [List.mem_flatMap, List.mem_map, List.mem_range, State.mk.injEq]
  constructor
  · rintro ⟨m1, hm1, k1, hk1, rfl, rfl⟩; omega
  · rintro ⟨h1, h2⟩; exact ⟨m, by omega, k, by omega, rfl, rfl⟩

/-- Every outcome `Outcome::solve` produces satisfies the split,
inventory, conservation and non-negativity constraints. -/
theorem mem_solve {s1 s2 : State} {xt : ℕ} {a : ℤ} {oc : Outcome}
    (h : oc ∈ Outcome.solve s1 s2 xt a) :
    0 ≤ oc.x1 ∧ 0 ≤ oc.x2 ∧ 0 ≤ oc.y1 ∧ 0 ≤ oc.y2 ∧
      oc.x1 ≤ (s1.n1 : ℤ) - a ∧ oc.x2 ≤ (s1.n2 : ℤ) + a ∧
      oc.x1 + oc.x2 = (xt : ℤ) ∧
      oc.y1 = (s2.n1 : ℤ) - (s1.n1 : ℤ) + oc.x1 + a ∧
      oc.y2 = (s2.n2 : ℤ) - (s1.n2 : ℤ) + oc.x2 - a := by
  unfold Outcome.solve at h
  split at h
  · simp at h
  split at h
  · simp at h
  simp only [List.mem_filterMap, List.mem_range] at h
  obtain ⟨x, hx, heq⟩ := h
  split at heq
  · split at heq
    · rename_i henough hnonneg
      simp only [Outcome.locations_have_enough_cars] at henough
      simp only [Outcome.is_nonnegative] at hnonneg
      rw [Option.some.injEq] at heq
      subst heq
      obtain ⟨e1, e2⟩ := henough
      obtain ⟨m1, m2, m3, m4⟩ := hnonneg
      refine ⟨m1, m2, m3, m4, e1, e2, ?_, rfl, rfl⟩
      simp only [Int.ofNat_eq_coe]
      omega
    · exact absurd heq (by simp)
  · exact absurd heq (by simp)

/-- Under the shapes `Policy::new` produces (move bound at most 63, so
the shifted action index stays in the `i8` range) and an action within
the move bound, `Policy::get_value` succeeds and reads the table entry at
the shifted action index. -/
theorem get_value_eq {p : Policy} {n1 n2 : ℕ} {a : ℤ}
    (h1 : n1 ≤ p.max1) (h2 : n2 ≤ p.max2)
    (h1m : p.max1 ≤ 254) (h2m : p.max2 ≤ 254) (h3 : p.max_move ≤ 63)
    (h4 : -(p.max_move : ℤ) ≤ a) (h5 : a ≤ (p.max_move : ℤ)) :
    p.get_value n1 n2 a = some (p.action_value n1 n2 (a + (p.max_move : ℤ)).toNat) := by
  unfold Policy.get_value
  rw [toI8_eq_self (v := (p.max_move : ℤ)) (by omega) (by omega),
    toI8_eq_self (v := a + (p.max_move : ℤ)) (by omega) (by omega),
    toUsize_eq_toNat (by omega) (by omega)]
  rw [if_pos]
  omega

/-- Under capacities at most 127, a start state within capacity, a next
state within capacity and an exactly valid action, every outcome of
`Outcome::solve` makes all four lookups of `outcome_prob` in-range, and
`outcome_prob` returns the plain product of table entries. -/
theorem outcome_prob_eq {A : RentalAgency} {s1 s2 : State} {a : ℤ}
    {xt : ℕ} {oc : Outcome}
    (hm1 : A.max1 ≤ 127) (hm2 : A.max2 ≤ 127)
    (hs1 : s1.n1 ≤ A.max1) (hs2 : s1.n2 ≤ A.max2)
    (ht1 : s2.n1 ≤ A.max1) (ht2 : s2.n2 ≤ A.max2)
    (hv : valid_action A.max1 A.max2 s1 a)
    (h : oc ∈ Outcome.solve s1 s2 xt a) :
    outcome_prob A s1 a oc = some (prod_prob A s1 a oc) := by
  obtain ⟨m1, m2, m3, m4, e1, e2, exy, ey1, ey2⟩ := mem_solve h
  obtain ⟨hpos, hneg⟩ := hv
  have d1pos : 0 ≤ (s1.n1 : ℤ) - a := by omega
  have d1le : (s1.n1 : ℤ) - a ≤ (A.max1 : ℤ) := by omega
  have d2pos : 0 ≤ (s1.n2 : ℤ) + a := by omega
  have d2le : (s1.n2 : ℤ) + a ≤ (A.max2 : ℤ) := by omega
  have hy1le : oc.y1 ≤ (s2.n1 : ℤ) := by omega
  have hy2le : oc.y2 ≤ (s2.n2 : ℤ) := by omega
  have w1 : toI8 (s1.n1 : ℤ) = (s1.n1 : ℤ) := toI8_eq_self (by omega) (by omega)
  have w2 : toI8 ((s1.n1 : ℤ) - a) = (s1.n1 : ℤ) - a :=
    toI8_eq_self (by omega) (by omega)
  have w3 : toUsize ((s1.n1 : ℤ) - a) = ((s1.n1 : ℤ) - a).toNat :=
    toUsize_eq_toNat (by omega) (by omega)
  have w4 : toI8 (s1.n2 : ℤ) = (s1.n2 : ℤ) := toI8_eq_self (by omega) (by omega)
  have w5 : toI8 ((s1.n2 : ℤ) + a) = (s1.n2 : ℤ) + a :=
    toI8_eq_self (by omega) (by omega)
  have w6 : toUsize ((s1.n2 : ℤ) + a) = ((s1.n2 : ℤ) + a).toNat :=
    toUsize_eq_toNat (by omega) (by omega)
  have wx1 : toUsize oc.x1 = oc.x1.toNat := toUsize_eq_toNat (by omega) (by omega)
  have wy1 : toUsize oc.y1 = oc.y1.toNat := toUsize_eq_toNat (by omega) (by omega)
  have wx2 : toUsize oc.x2 = oc.x2.toNat := toUsize_eq_toNat (by omega) (by omega)
  have wy2 : toUsize oc.y2 = oc.y2.toNat := toUsize_eq_toNat (by omega) (by omega)
  have u1 : usizeSub ((s1.n1 : ℤ) - a).toNat oc.x1.toNat =
      ((s1.n1 : ℤ) - a).toNat - oc.x1.toNat := usizeSub_eq (by omega) (by omega)
  have u2 : usizeSub ((s1.n2 : ℤ) + a).toNat oc.x2.toNat =
      ((s1.n2 : ℤ) + a).toNat - oc.x2.toNat := usizeSub_eq (by omega) (by omega)
  have l1 : lookup2 A.x1 A.max1 ((s1.n1 : ℤ) - a).toNat oc.x1.toNat =
      some (A.x1 ((s1.n1 : ℤ) - a).toNat oc.x1.toNat) := by
    unfold lookup2
    split
    · rfl
    · omega
  have l2 : lookup2 A.y1 A.max1 (((s1.n1 : ℤ) - a).toNat - oc.x1.toNat) oc.y1.toNat =
      some (A.y1 (((s1.n1 : ℤ) - a).toNat - oc.x1.toNat) oc.y1.toNat) := by
    unfold lookup2
    split
    · rfl
    · omega
  have l3 : lookup2 A.x2 A.max2 ((s1.n2 : ℤ) + a).toNat oc.x2.toNat =
      some (A.x2 ((s1.n2 : ℤ) + a).toNat oc.x2.toNat) := by
    unfold lookup2
    split
    · rfl
    · omega
  have l4 : lookup2 A.y2 A.max2 (((s1.n2 : ℤ) + a).toNat - oc.x2.toNat) oc.y2.toNat =
      some (A.y2 (((s1.n2 : ℤ) + a).toNat - oc.x2.toNat) oc.y2.toNat) := by
    unfold lookup2
    split
    · rfl
    · omega
  simp only [outcome_prob, w1, w2, w3, w4, w5, w6, wx1, wy1, wx2, wy2, u1, u2,
    l1, l2, l3, l4, Option.bind_eq_bind, Option.some_bind]
  rfl

/-- Under the same preconditions, `calc_reward_prob` succeeds and returns
the code's reward together with the mass of the transition. -/
theorem calc_reward_prob_eq {A : RentalAgency} {s1 s2 : State} {a : ℤ}
    {xt : ℕ}
    (hm1 : A.max1 ≤ 127) (hm2 : A.max2 ≤ 127)
    (hs1 : s1.n1 ≤ A.max1) (hs2 : s1.n2 ≤ A.max2)
    (ht1 : s2.n1 ≤ A.max1) (ht2 : s2.n2 ≤ A.max2)
    (hv : valid_action A.max1 A.max2 s1 a) :
    calc_reward_prob A s1 s2 a xt = some (reward xt a, mass A s1 s2 a xt) := by
  unfold calc_reward_prob
  have hfold := foldlM_option_sum (Outcome.solve s1 s2 xt a)
    (fun (acc : ℝ) oc => do
      let prob ← outcome_prob A s1 a oc
      some (acc + prob))
    (prod_prob A s1 a)
    (fun oc hoc acc => by
      show (do
        let prob ← outcome_prob A s1 a oc
        some (acc + prob)) = some (acc + prod_prob A s1 a oc)
      rw [outcome_prob_eq hm1 hm2 hs1 hs2 ht1 ht2 hv hoc]
      rfl) 0
  rw [hfold]
  simp [mass]

/-- For a start state within capacities at most 127 and an exactly valid
action, the wrapping `i8` gate of `calc_value_for_action` computes the
exact comparisons and lets the evaluation proceed. -/
theorem gate_passes {A : RentalAgency} {s1 : State} {a : ℤ}
    (hm1 : A.max1 ≤ 127) (hm2 : A.max2 ≤ 127)
    (hs1 : s1.n1 ≤ A.max1) (hs2 : s1.n2 ≤ A.max2)
    (hv : valid_action A.max1 A.max2 s1 a) :
    ¬(0 < a ∧ (toI8 (a + toI8 (s1.n2 : ℤ)) > toI8 (A.max2 : ℤ)
        ∨ toI8 (toI8 (s1.n1 : ℤ) - a) < 0)) ∧
    ¬(a < 0 ∧ (toI8 (toI8 (s1.n1 : ℤ) - a) > toI8 (A.max1 : ℤ)
        ∨ toI8 (toI8 (s1.n2 : ℤ) + a) < 0)) := by
  obtain ⟨hpos, hneg⟩ := hv
  unfold toI8
  omega

theorem list_range_map_sum (n : ℕ) (f : ℕ → ℝ) :
    ((List.range n).map f).sum = ∑ i ∈ Finset.range n, f i := by
  induction n with
  | zero => simp
  | succ k ih =>
    rw [List.range_succ, Finset.sum_range_succ, List.map_append,
      List.sum_append, ih]
    simp

theorem sum_map_flatMap {α β : Type} (l : List α) (g : α → List β) (T : β → ℝ) :
    ((l.flatMap g).map T).sum = (l.map (fun x => ((g x).map T).sum)).sum := by
  induction l with
  | nil => simp
  | cons x xs ih => simp [List.flatMap_cons, ih]

theorem stateList_map_sum (m1 m2 : ℕ) (T : State → ℝ) :
    ((stateList m1 m2).map T).sum =
      ∑ m ∈ Finset.range (m1 + 1), ∑ k ∈ Finset.range (m2 + 1), T ⟨m, k⟩ := by
  unfold stateList
  rw [sum_map_flatMap]
  rw [show (fun (x : ℕ) => (((List.range (m2 + 1)).map fun n2 => State.mk x n2).map T).sum)
      = fun (x : ℕ) => ((List.range (m2 + 1)).map fun n2 => T ⟨x, n2⟩).sum from
    funext fun x => by rw [List.map_map]; rfl]
  rw [list_range_map_sum (m1 + 1) (fun m => ((List.range (m2 + 1)).map fun k => T ⟨m, k⟩).sum)]
  exact Finset.sum_congr rfl fun m _ => list_range_map_sum (m2 + 1) fun k => T ⟨m, k⟩

/-- The master evaluation lemma: with capacities at most 127, a start
state within capacity, an exactly valid action, and a policy of the
matching shape whose move bound keeps the shifted action index inside the
`i8` range, `calc_value_for_action` runs to completion and returns
exactly the triple sum `claimed_value`. -/
theorem calc_value_eq_claimed {A : RentalAgency} {pi : Policy} {s1 : State} {a : ℤ}
    (hm1 : A.max1 ≤ 127) (hm2 : A.max2 ≤ 127)
    (hs1 : s1.n1 ≤ A.max1) (hs2 : s1.n2 ≤ A.max2)
    (hv : valid_action A.max1 A.max2 s1 a)
    (hp1 : pi.max1 = A.max1) (hp2 : pi.max2 = A.max2)
    (hmm : pi.max_move ≤ 63)
    (ha1 : -(pi.max_move : ℤ) ≤ a) (ha2 : a ≤ (pi.max_move : ℤ)) :
    calc_value_for_action A s1 a pi = some (claimed_value A s1 a pi) := by
  have habs63 : |a| ≤ 63 := abs_le.mpr ⟨by omega, by omega⟩
  have habs0 : 0 ≤ |a| := abs_nonneg a
  have habs : toI8 |a| = |a| := toI8_eq_self (by omega) (by omega)
  have hrw : ∀ xt : ℕ, ((reward xt a : ℤ) : ℝ) = 10 * (xt : ℝ) - 2 * |(a : ℝ)| := by
    intro xt
    unfold reward
    rw [habs]
    push_cast
    ring
  obtain ⟨hg1, hg2⟩ := gate_passes hm1 hm2 hs1 hs2 hv
  unfold calc_value_for_action
  rw [if_neg hg1, if_neg hg2]
  have hstep : ∀ s2 ∈ stateList A.max1 A.max2, ∀ acc : ℝ,
      (fun (value : ℝ) s2 => do
        let v_s2 ← pi.get_value s2.n1 s2.n2 a
        let max_rented ← checkedAddU8 s1.n1 s1.n2
        (List.range (max_rented + 1)).foldlM
          (fun (value : ℝ) xt => do
            let rp ← calc_reward_prob A s1 s2 a xt
            some (value + rp.2 * ((rp.1 : ℝ) + A.g * v_s2)))
          value) acc s2 =
      some (acc + ((List.range (s1.n1 + s1.n2 + 1)).map
        (fun xt => mass A s1 s2 a xt *
          ((10 * (xt : ℝ) - 2 * |(a : ℝ)|) +
            A.g * pi.action_value s2.n1 s2.n2 (a + (pi.max_move : ℤ)).toNat))).sum) := by
    intro s2 hs2mem acc
    obtain ⟨ht1, ht2⟩ := mem_stateList.mp hs2mem
    have hget : pi.get_value s2.n1 s2.n2 a =
        some (pi.action_value s2.n1 s2.n2 (a + (pi.max_move : ℤ)).toNat) :=
      get_value_eq (by omega) (by omega) (by omega) (by omega) hmm ha1 ha2
    have hadd : checkedAddU8 s1.n1 s1.n2 = some (s1.n1 + s1.n2) := by
      unfold checkedAddU8; rw [if_pos (by omega)]
    show (do
      let v_s2 ← pi.get_value s2.n1 s2.n2 a
      let max_rented ← checkedAddU8 s1.n1 s1.n2
      (List.range (max_rented + 1)).foldlM
        (fun (value : ℝ) xt => do
          let rp ← calc_reward_prob A s1 s2 a xt
          some (value + rp.2 * ((rp.1 : ℝ) + A.g * v_s2)))
        acc) = _
    rw [hget, hadd]
    simp only [Option.bind_eq_bind, Option.some_bind]
    have hinner := foldlM_option_sum (List.range (s1.n1 + s1.n2 + 1))
      (fun (value : ℝ) xt => do
        let rp ← calc_reward_prob A s1 s2 a xt
        some (value + rp.2 * ((rp.1 : ℝ) +
          A.g * pi.action_value s2.n1 s2.n2 (a + (pi.max_move : ℤ)).toNat)))
      (fun xt => mass A s1 s2 a xt *
        ((10 * (xt : ℝ) - 2 * |(a : ℝ)|) +
          A.g * pi.action_value s2.n1 s2.n2 (a + (pi.max_move : ℤ)).toNat))
      (fun xt hxt acc2 => by
        show (do
          let rp ← calc_reward_prob A s1 s2 a xt
          some (acc2 + rp.2 * ((rp.1 : ℝ) +
            A.g * pi.action_value s2.n1 s2.n2 (a + (pi.max_move : ℤ)).toNat))) = _
        rw [calc_reward_prob_eq hm1 hm2 hs1 hs2 ht1 ht2 hv]
        simp only [Option.bind_eq_bind, Option.some_bind]
        rw [hrw xt]) acc
    exact hinner
  have houter := foldlM_option_sum (stateList A.max1 A.max2) _ _ hstep 0
  rw [houter]
  congr 1
  rw [zero_add]
  rw [stateList_map_sum A.max1 A.max2]
  unfold claimed_value
  exact Finset.sum_congr rfl fun m _ => Finset.sum_congr rfl fun k _ =>
    list_range_map_sum (s1.n1 + s1.n2 + 1) _

/-- A rental-table row within capacity sums to exactly 1: the pmf terms
below the inventory plus the absorbed tail `1 - cdf(n-1)`. -/
theorem rent_row_sum (lam : ℝ) {max_n n : ℕ} (h : n ≤ max_n) :
    ∑ x ∈ Finset.range (max_n + 1), rent_prob lam max_n n x = 1 := by
  rcases Nat.eq_zero_or_pos n with hn | hn
  · subst hn
    rw [Finset.sum_eq_single_of_mem 0 (Finset.mem_range.mpr (by omega))]
    · unfold rent_prob
      split_ifs <;> first | rfl | (exfalso; omega)
    · intro x hx hne
      unfold rent_prob
      split_ifs <;> first | rfl | (exfalso; omega)
  · have hsplit : ∑ x ∈ Finset.range (n + 1), rent_prob lam max_n n x +
        ∑ x ∈ Finset.Ico (n + 1) (max_n + 1), rent_prob lam max_n n x =
        ∑ x ∈ Finset.range (max_n + 1), rent_prob lam max_n n x :=
      Finset.sum_range_add_sum_Ico _ (by omega)
    rw [← hsplit]
    have htail : ∑ x ∈ Finset.Ico (n + 1) (max_n + 1), rent_prob lam max_n n x = 0 := by
      apply Finset.sum_eq_zero
      intro x hx
      rw [Finset.mem_Ico] at hx
      unfold rent_prob
      split_ifs <;> first | rfl | (exfalso; omega)
    have hlast : rent_prob lam max_n n n = 1 - poisson_cdf lam (n - 1) := by
      unfold rent_prob
      split_ifs <;> first | rfl | (exfalso; omega)
    have hhead : ∑ x ∈ Finset.range n, rent_prob lam max_n n x =
        ∑ x ∈ Finset.range n, poisson_pmf lam x := by
      apply Finset.sum_congr rfl
      intro x hx
      rw [Finset.mem_range] at hx
      unfold rent_prob
      split_ifs <;> first | rfl | (exfalso; omega)
    have hcdf : poisson_cdf lam (n - 1) = ∑ x ∈ Finset.range n, poisson_pmf lam x := by
      unfold poisson_cdf
      rw [show n - 1 + 1 = n from by omega]
    rw [Finset.sum_range_succ, hhead, hlast, hcdf, htail]
    ring

/-- A return-table row strictly below capacity sums to exactly 1. -/
theorem return_row_sum (lam : ℝ) {max_n n : ℕ} (h : n < max_n) :
    ∑ y ∈ Finset.range (max_n + 1), return_prob lam max_n n y = 1 := by
  set free := max_n - n with hfree
  have hfree1 : 1 ≤ free := by omega
  have hsplit : ∑ y ∈ Finset.range (free + 1), return_prob lam max_n n y +
      ∑ y ∈ Finset.Ico (free + 1) (max_n + 1), return_prob lam max_n n y =
      ∑ y ∈ Finset.range (max_n + 1), return_prob lam max_n n y :=
    Finset.sum_range_add_sum_Ico _ (by omega)
  rw [← hsplit]
  have htail : ∑ y ∈ Finset.Ico (free + 1) (max_n + 1), return_prob lam max_n n y = 0 := by
    apply Finset.sum_eq_zero
    intro y hy
    rw [Finset.mem_Ico] at hy
    unfold return_prob
    split_ifs <;> first | rfl | (exfalso; omega)
  have hlast : return_prob lam max_n n free = 1 - poisson_cdf lam (free - 1) := by
    unfold return_prob
    split_ifs <;> first | rfl | (exfalso; omega)
  have hhead : ∑ y ∈ Finset.range free, return_prob lam max_n n y =
      ∑ y ∈ Finset.range free, poisson_pmf lam y := by
    apply Finset.sum_congr rfl
    intro y hy
    rw [Finset.mem_range] at hy
    unfold return_prob
    split_ifs <;> first | rfl | (exfalso; omega)
  have hcdf : poisson_cdf lam (free - 1) = ∑ y ∈ Finset.range free, poisson_pmf lam y := by
    unfold poisson_cdf
    rw [show free - 1 + 1 = free from by omega]
  rw [Finset.sum_range_succ, hhead, hlast, hcdf, htail]
  ring

/-- The full-lot return-table row is 1 at column 0 and 0 elsewhere. -/
theorem return_row_full (lam : ℝ) (max_n : ℕ) :
    return_prob lam max_n max_n 0 = 1 ∧
      ∀ y : ℕ, 0 < y → return_prob lam max_n max_n y = 0 := by
  constructor
  · unfold return_prob
    split_ifs <;> first | rfl | (exfalso; omega)
  · intro y hy
    unfold return_prob
    split_ifs <;> first | rfl | (exfalso; omega)

/-- Under the move gate and no `u8` overflow in `s1.n1 + s1.n2`,
`Outcome::solve` lists exactly the splits the specification describes. -/
theorem solve_eq_spec {s1 s2 : State} {xt : ℕ} {a : ℤ}
    (hsum : s1.n1 + s1.n2 ≤ 255)
    (ha1 : a ≤ (s1.n1 : ℤ)) (ha2 : -a ≤ (s1.n2 : ℤ)) :
    Outcome.solve s1 s2 xt a = spec_outcomes s1 s2 xt a := by
  unfold Outcome.solve
  rw [if_neg (by omega)]
  by_cases hxt : xt > (s1.n1 + s1.n2) % 256
  · rw [if_pos hxt]
    symm
    unfold spec_outcomes
    rw [List.filterMap_eq_nil_iff]
    intro x hx
    rw [List.mem_range] at hx
    simp only []
    split_ifs with hc
    · exfalso
      obtain ⟨c1, c2, c3, c4, c5, c6⟩ := hc
      omega
    · rfl
  · rw [if_neg hxt]
    unfold spec_outcomes
    apply List.filterMap_congr
    intro x hx
    rw [List.mem_range] at hx
    have hx2 : Int.ofNat (xt - x) = (xt : ℤ) - (x : ℤ) := by
      simp only [Int.ofNat_eq_coe]
      omega
    simp only [Outcome.locations_have_enough_cars, Outcome.is_nonnegative, hx2]
    split_ifs <;> first | rfl | (exfalso; omega)

/-- `Outcome::solve` lists its outcomes in strictly increasing order of
`x1` (one candidate split per loop iteration). -/
theorem solve_pairwise (s1 s2 : State) (xt : ℕ) (a : ℤ) :
    (Outcome.solve s1 s2 xt a).Pairwise (fun u v => u.x1 < v.x1) := by
  unfold Outcome.solve
  split
  · simp
  split
  · simp
  rw [List.pairwise_filterMap]
  refine (List.pairwise_lt_range _).imp ?_
  intro x y hxy b hb c hc
  simp only [] at hb hc
  have hbx : b.x1 = (x : ℤ) := by
    split at hb
    · split at hb
      · rw [Option.mem_def, Option.some.injEq] at hb
        subst hb
        rfl
      · simp at hb
    · simp at hb
  have hcy : c.x1 = (y : ℤ) := by
    split at hc
    · split at hc
      · rw [Option.mem_def, Option.some.injEq] at hc
        subst hc
        rfl
      · simp at hc
    · simp at hc
  rw [hbx, hcy]
  exact_mod_cast hxy

/-! ## Claim theorems -/

/-- Claim C2, counterexample. As stated the claim fails: for the states
(200, 200) the guard `xt > (s1.n1 + s1.n2) as u16` adds the inventories
in `u8` arithmetic, 400 wraps to 144 (a debug build panics), so for
`xt = 150` and action 0 `Outcome::solve` returns no outcomes even though
all 151 splits satisfy every condition the claim lists. -/
theorem C2_counterexample :
    Outcome.solve ⟨200, 200⟩ ⟨200, 200⟩ 150 0 = [] ∧
      (spec_outcomes ⟨200, 200⟩ ⟨200, 200⟩ 150 0).length = 151 ∧
      Outcome.solve ⟨200, 200⟩ ⟨200, 200⟩ 150 0 ≠
        spec_outcomes ⟨200, 200⟩ ⟨200, 200⟩ 150 0 := by
  refine ⟨by decide, by decide, by decide⟩

/-- Claim C2, amended: additionally assuming `s1.n1 + s1.n2 ≤ 255` (no
`u8` overflow in the guard), `Outcome::solve` with `a ≤ s1.n1` and
`-a ≤ s1.n2` returns, ordered by strictly increasing `x1`, exactly the
outcomes with `x1` in `[0, xt]`, `x2 = xt - x1`, `y1`, `y2` given by the
conservation law, that are non-negative and within each site's post-move
inventory; the result may be empty. -/
theorem C2_solve_enumerates_splits {s1 s2 : State} {xt : ℕ} {a : ℤ}
    (h255 : s1.n1 + s1.n2 ≤ 255)
    (ha1 : a ≤ (s1.n1 : ℤ)) (ha2 : -a ≤ (s1.n2 : ℤ)) :
    Outcome.solve s1 s2 xt a = spec_outcomes s1 s2 xt a ∧
      (Outcome.solve s1 s2 xt a).Pairwise (fun u v => u.x1 < v.x1) :=
  ⟨solve_eq_spec h255 ha1 ha2, solve_pairwise s1 s2 xt a⟩

theorem C2_witness :
    Outcome.solve ⟨3, 3⟩ ⟨2, 2⟩ 3 1 = spec_outcomes ⟨3, 3⟩ ⟨2, 2⟩ 3 1 :=
  (C2_solve_enumerates_splits (by norm_num) (by norm_num) (by norm_num)).1

/-- Claim C3: with the Poisson pmf and cdf read as exact reals (cdf(n)
being the partial sum of the pmf through n), every rental-table row
within capacity sums to exactly 1; every return-table row strictly below
capacity sums to exactly 1; and the full-lot return row is 1 at column 0
and 0 at every other column. The entries are exactly those
`calc_rent_probs` / `calc_return_probs` store. -/
theorem C3_probability_rows_sum_to_one (lam : ℝ) (_hpos : 0 < lam) (max_n : ℕ) :
    (∀ n, n ≤ max_n → ∑ x ∈ Finset.range (max_n + 1), rent_prob lam max_n n x = 1) ∧
      (∀ n, n < max_n → ∑ y ∈ Finset.range (max_n + 1), return_prob lam max_n n y = 1) ∧
      (return_prob lam max_n max_n 0 = 1 ∧
        ∀ y, 0 < y → y ≤ max_n → return_prob lam max_n max_n y = 0) :=
  ⟨fun _ hn => rent_row_sum lam hn,
   fun _ hn => return_row_sum lam hn,
   (return_row_full lam max_n).1,
   fun y hy _ => (return_row_full lam max_n).2 y hy⟩

theorem C3_witness :
    (∑ x ∈ Finset.range (2 + 1), rent_prob 1 2 1 x = 1) ∧
      (∑ y ∈ Finset.range (2 + 1), return_prob 1 2 1 y = 1) ∧
      return_prob 1 2 2 0 = 1 :=
  ⟨(C3_probability_rows_sum_to_one 1 (by norm_num) 2).1 1 (by norm_num),
   (C3_probability_rows_sum_to_one 1 (by norm_num) 2).2.1 1 (by norm_num),
   (C3_probability_rows_sum_to_one 1 (by norm_num) 2).2.2.1⟩

/-- Claim C4, counterexample. The claim (quoting the repository's own
stale test) expects 3 outcomes for start (1,1), end (1,1), 2 total
rentals, action 0; the inventory filter `locations_have_enough_cars`
rejects the splits (0,2) and (2,0) because neither site holds 2 cars, so
`Outcome::solve` produces only one outcome. -/
theorem C4_counterexample :
    (Outcome.solve ⟨1, 1⟩ ⟨1, 1⟩ 2 0).length ≠ 3 := by
  decide

/-- Claim C4, amended: for start (1,1), end (1,1), total rentals 2 and
action 0, `Outcome::solve` produces exactly one outcome,
(x1=1, x2=1, y1=1, y2=1), and it satisfies the conservation check
`start.n_i - a_adj - x_i + y_i = end.n_i` at both sites. -/
theorem C4_single_outcome :
    Outcome.solve ⟨1, 1⟩ ⟨1, 1⟩ 2 0 = [⟨1, 1, 1, 1⟩] ∧
      ((1 : ℤ) - 0 - 1 + 1 = 1 ∧ (1 : ℤ) + 0 - 1 + 1 = 1) := by
  decide

/-- Claim C6, counterexample. The second half of the claim fails: for
`r = 32766`, `a = 5` the exact value `r + 2|a| = 32776` is not divisible
by 10, so the claim demands an invalid-reward failure; but the `i16`
addition wraps 32776 to -32760 (a debug build panics with an overflow
instead), which is divisible by 10, and `cars_rented` returns 52. -/
theorem C6_counterexample :
    ¬(10 ∣ ((32766 : ℤ) + 2 * |(5 : ℤ)|)) ∧ cars_rented 32766 5 = some 52 := by
  constructor
  · decide
  · decide

/-- Claim C6, amended: for `xt ≤ 255` and `a` in [-127, 127],
`reward(xt, a) = 10 xt - 2 |a|` and
`cars_rented(reward(xt, a), a) = xt`; and for every `i16` reward `r`
whose exact checked value `r + 2|a|` stays in the `i16` range and is not
divisible by 10, `cars_rented` fails with the invalid-reward panic. -/
theorem C6_reward_roundtrip :
    (∀ (xt : ℕ) (a : ℤ), xt ≤ 255 → -127 ≤ a → a ≤ 127 →
      reward xt a = 10 * (xt : ℤ) - 2 * |a| ∧
        cars_rented (reward xt a) a = some (xt : ℤ)) ∧
      (∀ r a : ℤ, -32768 ≤ r → r ≤ 32767 → -127 ≤ a → a ≤ 127 →
        r + 2 * |a| ≤ 32767 → ¬(10 ∣ (r + 2 * |a|)) → cars_rented r a = none) := by
  constructor
  · intro xt a hxt ha1 ha2
    have hB0 : 0 ≤ |a| := abs_nonneg a
    have hB1 : |a| ≤ 127 := abs_le.mpr ⟨by omega, by omega⟩
    have hrw : reward xt a = 10 * (xt : ℤ) - 2 * |a| := by
      unfold reward
      rw [toI8_eq_self (by omega) (by omega)]
      ring
    refine ⟨hrw, ?_⟩
    rw [hrw]
    unfold cars_rented
    have hv : toI16 (10 * (xt : ℤ) - 2 * |a| + toI16 (2 * toI16 |a|)) = 10 * (xt : ℤ) := by
      unfold toI16
      omega
    rw [hv, if_neg (by omega), if_neg (by omega)]
    unfold toU8
    simp only [Option.some.injEq]
    omega
  · intro r a hr1 hr2 ha1 ha2 hle hdvd
    have hB0 : 0 ≤ |a| := abs_nonneg a
    have hB1 : |a| ≤ 127 := abs_le.mpr ⟨by omega, by omega⟩
    unfold cars_rented
    have hv : toI16 (r + toI16 (2 * toI16 |a|)) = r + 2 * |a| := by
      unfold toI16
      omega
    rw [hv, if_pos (by omega)]

theorem C6_witness :
    (reward 5 (-2) = 10 * (5 : ℤ) - 2 * |(-2 : ℤ)| ∧
      cars_rented (reward 5 (-2)) (-2) = some (5 : ℤ)) ∧
      cars_rented 7 0 = none :=
  ⟨C6_reward_roundtrip.1 5 (-2) (by norm_num) (by norm_num) (by norm_num),
   C6_reward_roundtrip.2 7 0 (by norm_num) (by norm_num) (by norm_num) (by norm_num)
     (by norm_num) (by decide)⟩

/-- Claim C7: construction fails fast (a panic) when
`max_move > min(max1, max2) / 2` or when any of the four Poisson means
is non-positive (an invalid Poisson rate); otherwise it succeeds and
stores every parameter unchanged, with discount 0.9. -/
theorem C7_construction_validation (max1 : ℕ) (rm1 ret1 : ℚ)
    (max2 : ℕ) (rm2 ret2 : ℚ) (mm : ℕ) :
    ((mm > min max1 max2 / 2 ∨ rm1 ≤ 0 ∨ ret1 ≤ 0 ∨ rm2 ≤ 0 ∨ ret2 ≤ 0) →
      rental_agency_new max1 rm1 ret1 max2 rm2 ret2 mm = none) ∧
      (mm ≤ min max1 max2 / 2 → 0 < rm1 → 0 < ret1 → 0 < rm2 → 0 < ret2 →
        ∃ A : RentalAgency,
          rental_agency_new max1 rm1 ret1 max2 rm2 ret2 mm = some A ∧
            A.max1 = max1 ∧ A.rent_mean1 = rm1 ∧ A.return_mean1 = ret1 ∧
            A.max2 = max2 ∧ A.rent_mean2 = rm2 ∧ A.return_mean2 = ret2 ∧
            A.max_move = mm ∧ A.g = 0.9) := by
  constructor
  · intro hbad
    unfold rental_agency_new calc_rent_probs calc_return_probs
    split_ifs
    all_goals first | rfl | (exfalso; tauto)
  · intro hg hm1 hm2 hm3 hm4
    unfold rental_agency_new calc_rent_probs calc_return_probs
    rw [if_neg (by omega), if_neg (not_le.mpr hm1), if_neg (not_le.mpr hm2),
      if_neg (not_le.mpr hm3), if_neg (not_le.mpr hm4)]
    exact ⟨_, rfl, rfl, rfl, rfl, rfl, rfl, rfl, rfl, rfl⟩

theorem C7_witness :
    rental_agency_new 4 1 1 4 1 1 2 ≠ none ∧
      rental_agency_new 3 1 1 3 1 1 2 = none := by
  constructor
  · obtain ⟨A, hA, _⟩ := (C7_construction_validation 4 1 1 4 1 1 2).2
      (by norm_num) (by norm_num) (by norm_num) (by norm_num) (by norm_num)
    rw [hA]
    simp
  · exact (C7_construction_validation 3 1 1 3 1 1 2).1 (Or.inl (by norm_num))

/-- Claim C10: `cars_rented` rejects only a reward failing the
divisibility check or one whose recovered car count exceeds 255; a value
`r + 2|a|` that is a negative multiple of 10 is accepted and the negative
quotient comes back wrapped modulo 2^8 (`cars_rented(-10, 0) = 255`); a
negative car count is never reported as an error. -/
theorem C10_cars_rented_negative_wrap :
    (∀ r a : ℤ, -32768 ≤ r → r ≤ 32767 → -32768 ≤ a → a ≤ 32767 →
      r + 2 * |a| < 0 → (10 ∣ (r + 2 * |a|)) →
      cars_rented r a = some ((r + 2 * |a|) / 10 % 256)) ∧
      cars_rented (-10) 0 = some 255 ∧
      (∀ r a : ℤ, -32768 ≤ r → r ≤ 32767 → -32768 ≤ a → a ≤ 32767 →
        cars_rented r a = none →
        ¬(10 ∣ (r + 2 * |a|)) ∨ 255 < (r + 2 * |a|) / 10) := by
  refine ⟨?_, by decide, ?_⟩
  · intro r a hr1 hr2 ha1 ha2 hneg hdvd
    have hB0 : 0 ≤ |a| := abs_nonneg a
    have hB1 : |a| ≤ 32768 := abs_le.mpr ⟨by omega, by omega⟩
    unfold cars_rented
    have hv : toI16 (r + toI16 (2 * toI16 |a|)) = r + 2 * |a| := by
      unfold toI16
      omega
    rw [hv, if_neg (by omega), if_neg (by omega)]
    unfold toU8
    rfl
  · intro r a hr1 hr2 ha1 ha2 hnone
    have hB0 : 0 ≤ |a| := abs_nonneg a
    have hB1 : |a| ≤ 32768 := abs_le.mpr ⟨by omega, by omega⟩
    rcases le_or_lt (r + 2 * |a|) 32767 with hsmall | hbig
    · by_contra hcon
      push_neg at hcon
      obtain ⟨hdvd, hle255⟩ := hcon
      have hsome : cars_rented r a = some (toU8 ((r + 2 * |a|) / 10)) := by
        unfold cars_rented
        have hv : toI16 (r + toI16 (2 * toI16 |a|)) = r + 2 * |a| := by
          unfold toI16
          omega
        rw [hv, if_neg (by omega), if_neg (by omega)]
      rw [hsome] at hnone
      exact absurd hnone (by simp)
    · exact Or.inr (by omega)

theorem C10_witness :
    cars_rented (-20) 0 = some (((-20 : ℤ) + 2 * |(0 : ℤ)|) / 10 % 256) :=
  C10_cars_rented_negative_wrap.1 (-20) 0 (by norm_num) (by norm_num) (by norm_num)
    (by norm_num) (by norm_num) (by decide)

/-- Claim C1, counterexample. As stated the claim fails: for the agency
built with capacities 200 (move bound 100) and the start state
(200, 200) with the gate-passing action 0 and the matching all-zero
policy tables, `s1.n1.checked_add(s1.n2)` overflows `u8` and the
evaluation panics (`none`) instead of returning the triple sum. -/
theorem C1_counterexample :
    valid_action agency200.max1 agency200.max2 ⟨200, 200⟩ 0 ∧
      calc_value_for_action agency200 ⟨200, 200⟩ 0 pi200 = none ∧
      calc_value_for_action agency200 ⟨200, 200⟩ 0 pi200 ≠
        some (claimed_value agency200 ⟨200, 200⟩ 0 pi200) := by
  refine ⟨⟨by omega, by omega⟩, ?_, ?_⟩
  · rfl
  · rw [show calc_value_for_action agency200 ⟨200, 200⟩ 0 pi200 = none from rfl]
    simp

/-- Claim C1, amended: with capacities at most 127 (so the inventory sum
cannot overflow `u8` and the `i8` index arithmetic is exact), a start
state within capacity, an exactly valid action, a policy of the matching
shape with move bound at most 63 covering the action, and the discount
field 0.9 the constructor stores, `calc_value_for_action` returns exactly
the sum over every next state (n1, n2) within capacity and every
total-rentals count `xt ≤ s1.n1 + s1.n2` of
`mass * (10 xt - 2 |a| + 0.9 * value_table[s2][a])`, where `mass` sums
`outcome_prob` over every outcome of `Outcome::solve`. -/
theorem C1_value_is_triple_sum {A : RentalAgency} {pi : Policy} {s1 : State} {a : ℤ}
    (hm1 : A.max1 ≤ 127) (hm2 : A.max2 ≤ 127)
    (hs1 : s1.n1 ≤ A.max1) (hs2 : s1.n2 ≤ A.max2)
    (hv : valid_action A.max1 A.max2 s1 a)
    (hp1 : pi.max1 = A.max1) (hp2 : pi.max2 = A.max2)
    (hmm : pi.max_move ≤ 63)
    (ha1 : -(pi.max_move : ℤ) ≤ a) (ha2 : a ≤ (pi.max_move : ℤ))
    (hg : A.g = 0.9) :
    calc_value_for_action A s1 a pi =
      some (∑ m ∈ Finset.range (A.max1 + 1), ∑ k ∈ Finset.range (A.max2 + 1),
        ∑ xt ∈ Finset.range (s1.n1 + s1.n2 + 1),
          mass A s1 ⟨m, k⟩ a xt *
            ((10 * (xt : ℝ) - 2 * |(a : ℝ)|) +
              (0.9 : ℝ) * pi.action_value m k (a + (pi.max_move : ℤ)).toNat)) := by
  rw [calc_value_eq_claimed hm1 hm2 hs1 hs2 hv hp1 hp2 hmm ha1 ha2]
  unfold claimed_value
  rw [hg]

theorem C1_witness :
    calc_value_for_action agency1 ⟨0, 0⟩ 0 pi1 =
      some (∑ m ∈ Finset.range (agency1.max1 + 1), ∑ k ∈ Finset.range (agency1.max2 + 1),
        ∑ xt ∈ Finset.range (0 + 0 + 1),
          mass agency1 ⟨0, 0⟩ ⟨m, k⟩ 0 xt *
            ((10 * (xt : ℝ) - 2 * |((0 : ℤ) : ℝ)|) +
              (0.9 : ℝ) * pi1.action_value m k ((0 : ℤ) + (pi1.max_move : ℤ)).toNat)) :=
  C1_value_is_triple_sum (by norm_num [agency1]) (by norm_num [agency1])
    (by norm_num [agency1]) (by norm_num [agency1]) ⟨by omega, by omega⟩
    rfl rfl (by norm_num [pi1]) (by norm_num [pi1]) (by norm_num [pi1]) rfl

/-- Claim C5, counterexample. As stated the claim fails: for the
capacity-0 agency, the state (128, 255) and the action 1, the claim's
exact condition holds (`1 + 255 > 0`), so it demands an immediate 0.0;
but the gate compares through wrapping `as i8` casts (255 becomes -1 and
128 becomes -128, a debug build panics on `-128 - 1`), both wrapped
disjuncts are false, the evaluation proceeds, and the inventory-sum
overflow panics (`none`) instead of returning 0.0. -/
theorem C5_counterexample :
    (0 < (1 : ℤ) ∧ ((1 : ℤ) + ((255 : ℕ) : ℤ) > ((0 : ℕ) : ℤ) ∨
        ((128 : ℕ) : ℤ) - 1 < 0)) ∧
      calc_value_for_action agency0 ⟨128, 255⟩ 1 pi0 = none ∧
      calc_value_for_action agency0 ⟨128, 255⟩ 1 pi0 ≠ some 0 := by
  refine ⟨⟨by norm_num, Or.inl (by norm_num)⟩, ?_, ?_⟩
  · rfl
  · rw [show calc_value_for_action agency0 ⟨128, 255⟩ 1 pi0 = none from rfl]
    simp

/-- Claim C5, amended: for a start state and capacities at most 127, an
`i8` action, and intermediate sums that stay inside the `i8` range (for
`a > 0`, `a + s1.n2 ≤ 127`; for `a < 0`, `s1.n1 - a ≤ 127`), an action
violating the inventory bounds makes `calc_value_for_action` return
exactly 0.0 at once — a returned value, not an error — for every policy
table and every probability table. -/
theorem C5_invalid_action_returns_zero {A : RentalAgency} {pi : Policy}
    {s1 : State} {a : ℤ}
    (hm1 : A.max1 ≤ 127) (hm2 : A.max2 ≤ 127)
    (hs1 : s1.n1 ≤ 127) (hs2 : s1.n2 ≤ 127)
    (ha8a : -128 ≤ a) (ha8b : a ≤ 127)
    (hofl1 : 0 < a → a + (s1.n2 : ℤ) ≤ 127)
    (hofl2 : a < 0 → (s1.n1 : ℤ) - a ≤ 127)
    (hcond : (0 < a ∧ (a + (s1.n2 : ℤ) > (A.max2 : ℤ) ∨ (s1.n1 : ℤ) - a < 0)) ∨
      (a < 0 ∧ ((s1.n1 : ℤ) - a > (A.max1 : ℤ) ∨ (s1.n2 : ℤ) + a < 0))) :
    calc_value_for_action A s1 a pi = some 0 := by
  unfold calc_value_for_action
  rcases hcond with ⟨ha, hd⟩ | ⟨ha, hd⟩
  · have h1 : 0 < a ∧ (toI8 (a + toI8 (s1.n2 : ℤ)) > toI8 (A.max2 : ℤ) ∨
        toI8 (toI8 (s1.n1 : ℤ) - a) < 0) := by
      refine ⟨ha, ?_⟩
      unfold toI8
      omega
    rw [if_pos h1]
  · have h1 : ¬(0 < a ∧ (toI8 (a + toI8 (s1.n2 : ℤ)) > toI8 (A.max2 : ℤ) ∨
        toI8 (toI8 (s1.n1 : ℤ) - a) < 0)) := by
      rintro ⟨hpa, _⟩
      omega
    have h2 : a < 0 ∧ (toI8 (toI8 (s1.n1 : ℤ) - a) > toI8 (A.max1 : ℤ) ∨
        toI8 (toI8 (s1.n2 : ℤ) + a) < 0) := by
      refine ⟨ha, ?_⟩
      unfold toI8
      omega
    rw [if_neg h1, if_pos h2]

theorem C5_witness :
    calc_value_for_action agency1 ⟨0, 0⟩ 1 pi1 = some 0 :=
  C5_invalid_action_returns_zero (by norm_num [agency1]) (by norm_num [agency1])
    (by norm_num) (by norm_num) (by norm_num) (by norm_num)
    (by norm_num) (by omega)
    (Or.inl ⟨by norm_num, Or.inr (by norm_num)⟩)

/-- Claim C8, counterexample. As stated ("for every value/policy table
pi") the claim fails: reward is indeed impossible from (0, 0), but the
evaluator still accumulates `mass * discount * value_table[s2]`, so a
policy table holding 1 everywhere makes the value 0.9, not 0.0 (the
transition mass from (0, 0) to (0, 0) is 1 for the capacity-0 agency). -/
theorem C8_counterexample :
    calc_value_for_action agency0 ⟨0, 0⟩ 0 pi_one = some (9 / 10 : ℝ) ∧
      (9 / 10 : ℝ) ≠ 0 := by
  constructor
  · rw [calc_value_eq_claimed (by norm_num [agency0]) (by norm_num [agency0])
      (by norm_num [agency0]) (by norm_num [agency0]) ⟨by omega, by omega⟩
      rfl rfl (by norm_num [pi_one]) (by norm_num [pi_one]) (by norm_num [pi_one])]
    have hsolve : Outcome.solve ⟨0, 0⟩ ⟨0, 0⟩ 0 0 = [⟨0, 0, 0, 0⟩] := by decide
    have hx : rent_prob 1 0 0 0 = 1 := by
      unfold rent_prob
      norm_num
    have hy : return_prob 1 0 0 0 = 1 := by
      unfold return_prob
      norm_num
    have hmass : mass agency0 ⟨0, 0⟩ ⟨0, 0⟩ 0 0 = 1 := by
      unfold mass
      rw [hsolve]
      simp only [List.map_cons, List.map_nil, List.sum_cons, List.sum_nil]
      unfold prod_prob
      norm_num [agency0, hx, hy]
    congr 1
    unfold claimed_value
    rw [show agency0.max1 = 0 from rfl, show agency0.max2 = 0 from rfl]
    simp only [zero_add, Finset.sum_range_one]
    rw [hmass]
    norm_num [agency0, pi_one]
  · norm_num

/-- Claim C8, amended: for start state (0, 0) and action 0, and every
policy table of the matching shape whose stored values are all zero (as
`Policy::new` initializes them), `calc_value_for_action` returns exactly
0.0: the only total-rentals count is 0, so every term is
`mass * (0 + 0.9 * 0) = 0`. -/
theorem C8_zero_state_zero_value {A : RentalAgency} {pi : Policy}
    (hm1 : A.max1 ≤ 127) (hm2 : A.max2 ≤ 127)
    (hp1 : pi.max1 = A.max1) (hp2 : pi.max2 = A.max2) (hmm : pi.max_move ≤ 63)
    (hzero : ∀ m k idx, pi.action_value m k idx = 0) :
    calc_value_for_action A ⟨0, 0⟩ 0 pi = some 0 := by
  rw [calc_value_eq_claimed hm1 hm2 (by norm_num) (by norm_num)
    ⟨by omega, by omega⟩ hp1 hp2 hmm (by omega) (by omega)]
  congr 1
  unfold claimed_value
  apply Finset.sum_eq_zero
  intro m _
  apply Finset.sum_eq_zero
  intro k _
  apply Finset.sum_eq_zero
  intro xt hxt
  rw [Finset.mem_range] at hxt
  norm_num [Nat.lt_one_iff] at hxt
  subst hxt
  rw [hzero]
  norm_num

theorem C8_witness :
    calc_value_for_action agency1 ⟨0, 0⟩ 0 pi1 = some 0 :=
  C8_zero_state_zero_value (by norm_num [agency1]) (by norm_num [agency1])
    rfl rfl (by norm_num [pi1]) (fun _ _ _ => rfl)

/-- Claim C9, counterexample. As stated the claim fails: for capacities
127 and the start state (127, 127), the action 127 passes the code's
wrapping gate (127 + 127 wraps to -2, which is not greater than 127; a
debug build panics there), although it is not exactly valid
(`127 + 127 > 127`); `Outcome::solve` then produces the outcome
(0, 127, 0, 0) for the next state (0, 127) with 127 total rentals, and
`outcome_prob`'s site-2 row index `(127 + 127) as i8 as usize` is about
2^64, out of range: the lookup panics (`none`). -/
theorem C9_counterexample :
    (⟨0, 127, 0, 0⟩ : Outcome) ∈ Outcome.solve ⟨127, 127⟩ ⟨0, 127⟩ 127 127 ∧
      ¬(0 < (127 : ℤ) ∧ (toI8 (127 + toI8 ((127 : ℕ) : ℤ)) > toI8 ((127 : ℕ) : ℤ) ∨
          toI8 (toI8 ((127 : ℕ) : ℤ) - 127) < 0)) ∧
      ¬((127 : ℤ) + ((127 : ℕ) : ℤ) ≤ ((127 : ℕ) : ℤ)) ∧
      outcome_prob agency127 ⟨127, 127⟩ 127 ⟨0, 127, 0, 0⟩ = none := by
  refine ⟨by decide, by decide, by decide, ?_⟩
  rfl

/-- Claim C9, amended: with capacities at most 127, a start state and a
next state within capacity, and an exactly valid action, every outcome
`Outcome::solve` produces keeps all four `outcome_prob` lookups in
range — post-move inventories, remaining cars, rentals and returns all
lie within `[0, max]` at their site — so `outcome_prob` never reaches
the out-of-range panic and returns the product of the four entries. -/
theorem C9_lookups_in_range {max1 max2 : ℕ} {s1 s2 : State} {a : ℤ}
    {xt : ℕ} {oc : Outcome}
    (hm1 : max1 ≤ 127) (hm2 : max2 ≤ 127)
    (hs1 : s1.n1 ≤ max1) (hs2 : s1.n2 ≤ max2)
    (ht1 : s2.n1 ≤ max1) (ht2 : s2.n2 ≤ max2)
    (hv : valid_action max1 max2 s1 a)
    (h : oc ∈ Outcome.solve s1 s2 xt a) :
    (0 ≤ (s1.n1 : ℤ) - a ∧ (s1.n1 : ℤ) - a ≤ (max1 : ℤ) ∧
      0 ≤ (s1.n1 : ℤ) - a - oc.x1 ∧ (s1.n1 : ℤ) - a - oc.x1 ≤ (max1 : ℤ) ∧
      oc.x1 ≤ (max1 : ℤ) ∧ oc.y1 ≤ (max1 : ℤ) ∧
      0 ≤ (s1.n2 : ℤ) + a ∧ (s1.n2 : ℤ) + a ≤ (max2 : ℤ) ∧
      0 ≤ (s1.n2 : ℤ) + a - oc.x2 ∧ (s1.n2 : ℤ) + a - oc.x2 ≤ (max2 : ℤ) ∧
      oc.x2 ≤ (max2 : ℤ) ∧ oc.y2 ≤ (max2 : ℤ)) ∧
      ∀ A : RentalAgency, A.max1 = max1 → A.max2 = max2 →
        outcome_prob A s1 a oc = some (prod_prob A s1 a oc) := by
  constructor
  · obtain ⟨m1, m2, m3, m4, e1, e2, exy, ey1, ey2⟩ := mem_solve h
    obtain ⟨hpos, hneg⟩ := hv
    omega
  · intro A hA1 hA2
    subst hA1
    subst hA2
    exact outcome_prob_eq hm1 hm2 hs1 hs2 ht1 ht2 hv h

theorem C9_witness :
    outcome_prob agency1 ⟨1, 0⟩ 0 ⟨1, 0, 0, 0⟩ =
      some (prod_prob agency1 ⟨1, 0⟩ 0 ⟨1, 0, 0, 0⟩) :=
  (@C9_lookups_in_range 1 1 ⟨1, 0⟩ ⟨0, 0⟩ 0 1 ⟨1, 0, 0, 0⟩
    (by norm_num) (by norm_num) (by norm_num) (by norm_num) (by norm_num)
    (by norm_num) ⟨by omega, by omega⟩ (by decide)).2 agency1 rfl rfl

end Rustcar
